import Mathlib

/-!
Verification of the G4S-Mobility integration core against its specification.

The development shallowly embeds the two vendor-client variants:

* `api.py` (variant A, the documented REST/JSON client): JSON payloads are
  modelled by `G4S.JVal`, the mutable session fields of
  `ThreeDTrackingApiClient` by `G4S.ClientState`, and each network call by a
  `G4S.NetEvent` describing the outcome of the underlying HTTP request.
  `async_authenticate`, `_ensure_authenticated` and
  `async_get_latest_positions` become pure state-passing functions.

* `g4smobility.py` (variant B, the HTML-scraping client): the free-text label
  canonicalization, the colour-token classification, and the snapshot merge
  policy of `get_units` are embedded directly; the BeautifulSoup HTML
  extraction that yields the raw tokens is treated as the producer of the
  inputs of the embedded functions.

* `sensor.py` and `binary_sensor.py`: the nested-path lookup helper and the
  unique-key generation loop of the binary-sensor setup.
-/

namespace G4S

set_option maxRecDepth 8192

/-- JSON-like values as produced by `response.json()`.  Objects are
association lists from string keys to values; numbers are carried as
integers (no claim computes with a fractional payload). -/
inductive JVal where
  | null
  | bool (b : Bool)
  | num (n : Int)
  | str (s : String)
  | arr (xs : List JVal)
  | obj (fields : List (String × JVal))

/-- A JSON object, i.e. a Python `dict`, as an association list.  `lookup`
returns the first binding, matching the key uniqueness of a Python dict. -/
abbrev JObj := List (String × JVal)

/-- Python `d.get(k)`: `none` models the default result `None`. -/
def jget (o : JObj) (k : String) : Option JVal := o.lookup k

/-- Python `d.get(k, default)`. -/
def jgetD (o : JObj) (k : String) (d : JVal) : JVal := (jget o k).getD d

/-- Python truthiness `bool(v)` of a JSON value, negated. -/
def jfalsy : JVal → Bool
  | .null => true
  | .bool b => !b
  | .num n => n == 0
  | .str s => s == ""
  | .arr xs => xs.isEmpty
  | .obj fs => fs.isEmpty

/-- Python truthiness check `not d.get(k)`: a missing key yields `None`,
which is falsy. -/
def optFalsy : Option JVal → Bool
  | none => true
  | some v => jfalsy v

/-- Rendering `str(v)`, used where the code builds an exception message from
a payload value.  Container renderings are abbreviated; no claim depends on
the text produced here. -/
def pyStr : JVal → String
  | .null => "None"
  | .bool true => "True"
  | .bool false => "False"
  | .num n => toString n
  | .str s => s
  | .arr _ => "[list]"
  | .obj _ => "[dict]"

/-!  The exception classes of `api.py`.

`ThreeDTrackingApiClientError` is the base class and
`ThreeDTrackingAuthError` its subclass.  `ApiError.authError` models an
instance of the subclass, `ApiError.clientError` an instance constructed as
the base class (so `isinstance(e, ThreeDTrackingAuthError)` is false for
it). -/
inductive ApiError where
  | authError (msg : String)
  | clientError (msg : String)

/-- Python `isinstance(e, ThreeDTrackingAuthError)`. -/
def ApiError.isAuthError : ApiError → Bool
  | .authError _ => true
  | .clientError _ => false

/-- Exceptions a `try` body in `api.py` can raise before the `except`
clauses classify them: the two error classes of the integration itself, and an
`AttributeError` from calling `.get` on a non-dict or `.lower()` on a
non-string. -/
inductive PyExn where
  | authError (msg : String)
  | clientError (msg : String)
  | attrError

/-- Message text `str(e)` of a body exception.  The `AttributeError` text is
abbreviated; no claim depends on it. -/
def PyExn.message : PyExn → String
  | .authError m => m
  | .clientError m => m
  | .attrError => "AttributeError"

/-- Outcome of one HTTP request made by the client: a response whose body
parsed to a JSON dict, an `aiohttp.ClientError` (connection failure or bad
HTTP status), or an `asyncio.TimeoutError`. -/
inductive NetEvent where
  | ok (data : JObj)
  | netError (msg : String)
  | timeoutErr

/-- The mutable session fields of `ThreeDTrackingApiClient`.  Time is
modelled in seconds, so `_session_expires` is an absolute second count.
The immutable credentials and the HTTP session object are not part of the
state. -/
structure ClientState where
  user_id_guid : Option JVal := none
  session_id : Option JVal := none
  session_expires : Option Nat := none

/-- The state set up by `__init__`: all three session fields are `None`. -/
def ClientState.init : ClientState := {}

/-- The session lifetime stored on successful authentication:
`timedelta(hours=23, minutes=50)` in seconds. -/
def sessionBuffer : Nat := 23 * 3600 + 50 * 60

/-- Evaluation of `data.get("Status", {}).get(k)`: the outer `none` models
the `AttributeError` raised when `"Status"` is present but not a dict; the
inner option is the looked-up value. -/
def statusGet (data : JObj) (k : String) : Option (Option JVal) :=
  match jget data "Status" with
  | none => some none
  | some (.obj sfs) => some (sfs.lookup k)
  | some _ => none

/-- The test `data.get("Status", {}).get("Result") != "ok"`, positively:
true exactly when the looked-up value is the string `"ok"`. -/
def isOkResult (rv : Option JVal) : Bool :=
  match rv with
  | some (.str s) => s == "ok"
  | _ => false

/-- The message lookup `data.get("Status", {}).get("Message", default)`.
When this helper is reached the `"Status"` entry is already known to be a
dict or absent, so the `AttributeError` case cannot occur and is mapped to
the default. -/
def statusMessage (data : JObj) (default : String) : String :=
  match statusGet data "Message" with
  | some (some m) => pyStr m
  | _ => default

/-- The body of the `try` block of `async_authenticate` (api.py lines
39-57): status check, `Result` presence check, and storing of
`UserIdGuid`, `SessionId` and the expiry timestamp. -/
def authBody (st : ClientState) (data : JObj) (now : Nat) :
    Except PyExn ClientState :=
  match statusGet data "Result" with
  | none => .error .attrError
  | some rv =>
    if isOkResult rv then
      let rOpt := jget data "Result"
      if optFalsy rOpt then
        .error (.authError "Authentication response missing \x27Result\x27 data.")
      else
        match rOpt with
        | some (.obj rfs) =>
          .ok { st with
                user_id_guid := rfs.lookup "UserIdGuid",
                session_id := rfs.lookup "SessionId",
                session_expires := some (now + sessionBuffer) }
        | _ => .error .attrError
    else
      .error (.authError (statusMessage data "Unknown authentication error"))

/-- `async_authenticate` including its `except` clauses.  An
`aiohttp.ClientError` or `asyncio.TimeoutError` becomes a base-class
client error; any other exception raised by the body - including the
`ThreeDTrackingAuthError` the body itself raises - is caught by the
trailing `except Exception` clause and re-raised as a new base-class
`ThreeDTrackingApiClientError`. -/
def async_authenticate (st : ClientState) (ev : NetEvent) (now : Nat) :
    Except ApiError ClientState :=
  match ev with
  | .netError m =>
    .error (.clientError ("Network or timeout error during authentication: " ++ m))
  | .timeoutErr =>
    .error (.clientError ("Network or timeout error during authentication: " ++ ""))
  | .ok data =>
    match authBody st data now with
    | .ok st' => .ok st'
    | .error e =>
      .error (.clientError ("Unexpected error during authentication: " ++ e.message))

/-- The re-authentication test of `_ensure_authenticated`:
`not self._session_id or (self._session_expires and now >= self._session_expires)`. -/
def needsReauth (st : ClientState) (now : Nat) : Bool :=
  optFalsy st.session_id ||
    (match st.session_expires with
     | some e => decide (now ≥ e)
     | none => false)

/-- `_ensure_authenticated`: re-authenticate exactly when the session id is
falsy or the stored expiry has been reached. -/
def ensure_authenticated (st : ClientState) (now : Nat) (ev : NetEvent) :
    Except ApiError ClientState :=
  if needsReauth st now then async_authenticate st ev now else .ok st

/-- Lowercasing `.lower()` of a Python string, on its character list. -/
def lowerL (l : List Char) : List Char := l.map Char.toLower

/-- Python substring test `sub in hay` (contiguous occurrence). -/
def listContains (sub : List Char) : List Char → Bool
  | [] => sub.isEmpty
  | c :: rest => sub.isPrefixOf (c :: rest) || listContains sub rest

/-- The auth-related-message test of api.py line 95:
`"session" in error_message.lower() or "authentication" in error_message.lower()`. -/
def isAuthRelatedMessage (m : String) : Bool :=
  listContains "session".toList (lowerL m.toList) ||
    listContains "authentication".toList (lowerL m.toList)

/-- The body of the `try` block of `async_get_latest_positions` (api.py
lines 86-99): status check, session invalidation on an auth-related error
message, and the verbatim `Result` payload (default `[]`) on success.
The first component is the client state after the body ran (the session
invalidation happens before the raise and therefore also on the error
path).  A non-string `Status.Message` makes `.lower()` raise an
`AttributeError` before the session is touched. -/
def posBody (st : ClientState) (data : JObj) : ClientState × Except PyExn JVal :=
  match statusGet data "Result" with
  | none => (st, .error .attrError)
  | some rv =>
    if isOkResult rv then
      (st, .ok (jgetD data "Result" (.arr [])))
    else
      match statusGet data "Message" with
      | some (some (.str m)) =>
        let st' := if isAuthRelatedMessage m then { st with session_id := none } else st
        (st', .error (.clientError m))
      | some (some _) => (st, .error .attrError)
      | some none =>
        let m := "Unknown error getting positions"
        let st' := if isAuthRelatedMessage m then { st with session_id := none } else st
        (st', .error (.clientError m))
      | none => (st, .error .attrError)

/-- The query parameters of the positions request (api.py lines 77-82).
The `LastDateReceivedUtc` value, a `strftime` rendering of
`now(utc) - 30 days`, is abstracted as an opaque date string supplied by
the caller; the other two parameters are the stored session fields. -/
def positionsParams (st : ClientState) (dateStr : String) :
    List (String × Option JVal) :=
  [("UserIdGuid", st.user_id_guid),
   ("SessionId", st.session_id),
   ("LastDateReceivedUtc", some (.str dateStr))]

/-- Observable outcome of one `async_get_latest_positions` call: the client
state afterwards, the query parameters sent (`none` when authentication
failed before the request was issued), and the returned payload or raised
error. -/
structure FetchResult where
  state : ClientState
  sentParams : Option (List (String × Option JVal))
  outcome : Except ApiError JVal

/-- `async_get_latest_positions`: first `_ensure_authenticated` (outside
the `try` block, so an authentication error propagates unwrapped), then
the positions request.  `authEv` is the network outcome a
re-authentication would see, `posEv` the outcome of the positions request
itself.  A body error - including the `ThreeDTrackingApiClientError`
raised on a bad status - is caught by the trailing `except Exception`
clause and re-raised wrapped as a new base-class error. -/
def async_get_latest_positions (st : ClientState) (now : Nat) (dateStr : String)
    (authEv : NetEvent) (posEv : NetEvent) : FetchResult :=
  match ensure_authenticated st now authEv with
  | .error e => ⟨st, none, .error e⟩
  | .ok st1 =>
    let params := positionsParams st1 dateStr
    match posEv with
    | .netError m =>
      ⟨st1, some params,
        .error (.clientError ("Network or timeout error getting positions: " ++ m))⟩
    | .timeoutErr =>
      ⟨st1, some params,
        .error (.clientError ("Network or timeout error getting positions: " ++ ""))⟩
    | .ok data =>
      match posBody st1 data with
      | (st2, .ok res) => ⟨st2, some params, .ok res⟩
      | (st2, .error e) =>
        ⟨st2, some params,
          .error (.clientError ("Unexpected error getting positions: " ++ e.message))⟩

/-- Fixture: a client state as left by a successful authentication that
stored `UserIdGuid="U1"` and `SessionId="S1"` at time 0. -/
def exAuthedState : ClientState :=
  { user_id_guid := some (.str "U1"),
    session_id := some (.str "S1"),
    session_expires := some sessionBuffer }

/-- Fixture: an authentication response carrying `UserIdGuid="U1"` and
`SessionId="S1"`. -/
def exAuthResp : JObj :=
  [("Status", .obj [("Result", .str "ok")]),
   ("Result", .obj [("UserIdGuid", .str "U1"), ("SessionId", .str "S1")])]

/-- Fixture: the `Result` object of `exAuthResp`. -/
def exResultObj : JObj :=
  [("UserIdGuid", .str "U1"), ("SessionId", .str "S1")]

/-- Fixture: a successful positions response with one unit in `Result`. -/
def exPosResp : JObj :=
  [("Status", .obj [("Result", .str "ok")]),
   ("Result", .arr [.str "unit1"])]

/-- Fixture: a failed positions response whose message mentions the
session. -/
def exBadPosResp : JObj :=
  [("Status", .obj [("Result", .str "error"), ("Message", .str "Session expired")])]

/-- Character-list view of the free-text titles handled by variant B
(`g4smobility.py`); working on `List Char` keeps every string operation
kernel-computable. -/
abbrev Label := List Char

/-- Python `s.removesuffix(suf)`: drop `suf` from the end when it is there. -/
def removesuffix (s suf : Label) : Label :=
  if suf.isSuffixOf s then s.take (s.length - suf.length) else s

/-- Python `s.removeprefix(p)`: drop `p` from the start when it is there. -/
def removepre (s p : Label) : Label :=
  if p.isPrefixOf s then s.drop p.length else s

/-- The trailing tokens stripped, in source order, by `get_units`
(g4smobility.py lines 86-99). -/
def suffixTokens : List Label :=
  [" error".toList, " off".toList, " on".toList, " ok".toList, " active".toList,
   " inactive".toList, " inserted".toList, " pulled".toList, " pull out".toList,
   " unlocked".toList, " locked".toList, " closed".toList, " open".toList,
   "ς".toList]

/-- The leading tokens stripped, in source order (lines 100-102). -/
def leadTokens : List Label :=
  ["κλείσιμο ".toList, "άνοιγμα ".toList, "no-".toList]

/-- The two synonym substitutions (lines 103-106): two independent `if`
statements applied in order. -/
def synonymFix (t : Label) : Label :=
  let t1 := if t = "unlock".toList then "lock".toList else t
  if t1 = "authorized".toList then "unauthorized".toList else t1

/-- The full title-normalization transform `get_units` applies to an
already-lowercased title (lines 86-106): the suffix chain, then the
leading-token chain, then the synonym substitutions. -/
def canonTitle (t : Label) : Label :=
  synonymFix (leadTokens.foldl removepre (suffixTokens.foldl removesuffix t))

/-- A label on which the stripping chains are inert: no listed trailing
token ends it and no listed leading token begins it. -/
def strippedForm (t : Label) : Bool :=
  suffixTokens.all (fun suf => !(suf.isSuffixOf t)) &&
    leadTokens.all (fun p => !(p.isPrefixOf t))

/-- The colour tokens mapped to the inactive state (g4smobility.py
line 108). -/
def inactiveColors : List String := ["green", "blue", "brightgreen", "offwhite"]

/-- The colour tokens mapped to the active state (line 110). -/
def activeColors : List String := ["yellow", "red", "grey", "lightgrey"]

/-- The colour classification of an indicator item (lines 107-111):
`active` starts as the indeterminate `None` and is set by the two
membership tests. -/
def colorActive (c : String) : Option Bool :=
  if c ∈ inactiveColors then some false
  else if c ∈ activeColors then some true
  else none

/-- `_get_value_from_path` (sensor.py lines 70-78): walk the path, at each
step requiring the current value to be a dict containing the key, and
otherwise return the Python `None`, modelled by `JVal.null`.  The Lean
function is total by construction, matching the claim that the walk never
raises. -/
def getValueFromPath (v : JVal) : List String → JVal
  | [] => v
  | k :: rest =>
    match v with
    | .obj fs =>
      match fs.lookup k with
      | some u => getValueFromPath u rest
      | none => .null
    | _ => .null

/-- The reading the specification gives of nested-path extraction, for comparison:
the value at the end of the path when every step goes through a dict
holding the key, and the absent value (`none`) otherwise. -/
def specResolve (v : JVal) : List String → Option JVal
  | [] => some v
  | k :: rest =>
    match v with
    | .obj fs =>
      match fs.lookup k with
      | some u => specResolve u rest
      | none => none
    | _ => none

/-- The per-device record built by `get_units` (g4smobility.py lines
162-170). -/
structure DeviceRecord where
  available : Bool
  id : String
  name : JVal
  lat : JVal
  lon : JVal
  sensors : JObj
  binary_sensors : JObj

/-- The `self.units` dictionary of variant B, extensionally: device id to
record. -/
abbrev UnitsMap := String → Option DeviceRecord

/-- One entry of the vendor response list `req["Units"]`.  `hasData` is
the `HasData` flag and `unitId` the `Unit.UnitId` key; `parsed` abstracts
the record the loop body builds in lines 76-170 (BeautifulSoup HTML
extraction, timestamp parsing and the sensor tables) for a unit whose
flag is set. -/
structure IncomingUnit where
  hasData : Bool
  unitId : String
  parsed : DeviceRecord

/-- The poll loop of `get_units` (lines 74-170): one record per unit with
`HasData`, keyed by unit id, later entries overwriting earlier ones. -/
def buildUnits (resp : List IncomingUnit) : UnitsMap :=
  resp.foldl
    (fun m u =>
      if u.hasData then
        fun k => if k = u.unitId then some u.parsed else m k
      else m)
    (fun _ => none)

/-- The `remember` merge of `get_units` (lines 172-176): `self.units` is
updated with every freshly built record, and each id present before but
absent from the fresh poll keeps its record with `available` overwritten
to `False`. -/
def applyRemember (prior fresh : UnitsMap) : UnitsMap :=
  fun k =>
    match fresh k with
    | some r => some r
    | none => (prior k).map fun r => { r with available := false }

/-- The `self.units` state update of `get_units` (lines 172-178): the
merge when `remember` is set, wholesale replacement otherwise. -/
def get_units (prior : UnitsMap) (resp : List IncomingUnit) (remember : Bool) :
    UnitsMap :=
  if remember then applyRemember prior (buildUnits resp) else buildUnits resp

/-- The character of one decimal digit. -/
def digitChar : Nat → Char
  | 0 => '0' | 1 => '1' | 2 => '2' | 3 => '3' | 4 => '4'
  | 5 => '5' | 6 => '6' | 7 => '7' | 8 => '8' | _ => '9'

/-- Decimal rendering of a counter, as in Python `str(counter)`, via the
base-10 digit list. -/
def natChars (n : Nat) : List Char := ((Nat.digits 10 n).map digitChar).reverse

/-- The candidate unique-key part for counter `c`: the base itself for
`c = 0` and `f"{base}_{c}"` afterwards (binary_sensor.py lines 69-79). -/
def candKey (base : List Char) (c : Nat) : List Char :=
  if c = 0 then base else base ++ '_' :: natChars c

/-- The collision `while` loop of binary_sensor.py lines 76-79, with
explicit fuel; `freshKey` supplies `used.length + 1` fuel, which
`freshKeyAux_not_mem` proves sufficient, so the fuel-exhausted branch is
never taken. -/
def freshKeyAux (base : List Char) (used : List (List Char)) : Nat → Nat → List Char
  | c, 0 => candKey base c
  | c, fuel + 1 =>
    if candKey base c ∈ used then freshKeyAux base used (c + 1) fuel
    else candKey base c

/-- The first candidate key not yet generated for this unit. -/
def freshKey (base : List Char) (used : List (List Char)) : List Char :=
  freshKeyAux base used 0 (used.length + 1)

/-- One `InputOutput` item as read by the binary-sensor setup:
`io_item.get("SystemName")`, `io_item.get("Description", "")` and
`io_item.get("UserDescription", "")`, with `none` for a missing
`SystemName`. -/
structure IOItem where
  systemName : Option String
  description : Option String
  userDescription : Option String

/-- The display name chosen for an item (binary_sensor.py lines 59-65):
the stripped user description, else the stripped description, else the
system name. -/
def ioDisplayName (sys : String) (io : IOItem) : String :=
  let ud := (io.userDescription.getD "").trim
  if ud ≠ "" then ud
  else
    let d := (io.description.getD "").trim
    if d ≠ "" then d else sys

/-- The unique-key generation loop of `async_setup_entry`
(binary_sensor.py lines 48-80): items with a falsy `SystemName` are
skipped, every other item receives the first fresh candidate built from
the slugified system name and display name, and the key is recorded in
the generated set.  The slugifier is `slugify` from the host framework,
taken as a parameter. -/
def genKeysAux (slug : String → String) :
    List IOItem → List (List Char) → List (List Char)
  | [], used => used
  | io :: rest, used =>
    match io.systemName with
    | none => genKeysAux slug rest used
    | some sys =>
      if sys = "" then genKeysAux slug rest used
      else
        genKeysAux slug rest
          (used ++ [freshKey ((slug sys ++ "_" ++ slug (ioDisplayName sys io)).toList) used])

/-- The unique-key parts generated for the item list of one unit, in order. -/
def genKeys (slug : String → String) (items : List IOItem) : List (List Char) :=
  genKeysAux slug items []

/-- Fixture: a nested payload with a `Position.Latitude` entry. -/
def exNested : JVal :=
  .obj [("Position", .obj [("Latitude", .num 7)])]

/-- Fixture: a prior device record for unit "u1". -/
def exRecord : DeviceRecord :=
  { available := true, id := "u1", name := .str "Car", lat := .num 1, lon := .num 2,
    sensors := [], binary_sensors := [] }

/-- Fixture: a prior snapshot holding only "u1". -/
def exPrior : UnitsMap := fun k => if k = "u1" then some exRecord else none

/-- Fixture: a poll response listing "u1" with its `HasData` flag unset. -/
def exNoDataResp : List IncomingUnit :=
  [{ hasData := false, unitId := "u1", parsed := exRecord }]

/-- C1.  The claim states that a response whose `Status.Result` is not
`"ok"`, or which lacks the `Result` field, makes `async_authenticate` raise
the distinct `ThreeDTrackingAuthError` class.  The code instead raises the
base `ThreeDTrackingApiClientError`: the auth error is raised inside the
`try` block and immediately caught by the trailing `except Exception`
clause, which re-raises it wrapped as a new base-class error, so the
handlers in `config_flow.py` (line 71) and `__init__.py` (line 44) that
catch `ThreeDTrackingAuthError` can never fire.  The network/timeout part
of the claim does hold.  This theorem evaluates the client at the failing
inputs. -/
theorem c1_auth_error_class_lost :
    async_authenticate ClientState.init
        (.ok [("Status", JVal.obj
          [("Result", JVal.str "error"), ("Message", JVal.str "Invalid credentials")])]) 0
      = Except.error (ApiError.clientError
          "Unexpected error during authentication: Invalid credentials")
    ∧ async_authenticate ClientState.init
        (.ok [("Status", JVal.obj [("Result", JVal.str "ok")])]) 0
      = Except.error (ApiError.clientError
          "Unexpected error during authentication: Authentication response missing \x27Result\x27 data.")
    ∧ async_authenticate ClientState.init (.netError "boom") 0
      = Except.error (ApiError.clientError
          "Network or timeout error during authentication: boom")
    ∧ (ApiError.clientError
          "Unexpected error during authentication: Invalid credentials").isAuthError
      = false := by
  refine ⟨rfl, rfl, rfl, rfl⟩

/-- Helper: a successful `async_authenticate` always stores the expiry
timestamp `now + sessionBuffer`. -/
theorem auth_ok_expires {st st1 : ClientState} {data : JObj} {now : Nat}
    (h : async_authenticate st (.ok data) now = Except.ok st1) :
    st1.session_expires = some (now + sessionBuffer) := by
  simp only [async_authenticate] at h
  cases hb : authBody st data now with
  | error e => rw [hb] at h; exact Except.noConfusion h
  | ok a =>
    rw [hb] at h
    injection h with h1
    subst h1
    simp only [authBody] at hb
    repeat' split at hb
    all_goals
      first
        | exact Except.noConfusion hb
        | (injection hb with h2; subst h2; rfl)

/-- C2.  A positions response whose `Status.Result` is not `"ok"` and whose
`Status.Message` contains `"session"` (case-insensitively) makes the client
clear its stored session id before raising, so the next
`_ensure_authenticated` finds no session id and re-authenticates; a message
containing neither `"session"` nor `"authentication"` leaves the stored
session id unchanged. -/
theorem c2_session_invalidation (st : ClientState) (now : Nat) (ds : String)
    (aev : NetEvent) (data : JObj) (rv : Option JVal) (m : String)
    (hno : needsReauth st now = false)
    (hres : statusGet data "Result" = some rv)
    (hne : isOkResult rv = false)
    (hmsg : statusGet data "Message" = some (some (JVal.str m))) :
    (∃ s, (async_get_latest_positions st now ds aev (.ok data)).outcome
        = Except.error (ApiError.clientError s)) ∧
    (listContains "session".toList (lowerL m.toList) = true →
      (async_get_latest_positions st now ds aev (.ok data)).state.session_id = none ∧
      ∀ t ev2,
        ensure_authenticated
            (async_get_latest_positions st now ds aev (.ok data)).state t ev2
          = async_authenticate
              (async_get_latest_positions st now ds aev (.ok data)).state ev2 t) ∧
    (isAuthRelatedMessage m = false →
      (async_get_latest_positions st now ds aev (.ok data)).state.session_id
        = st.session_id) := by
  have h1 : ensure_authenticated st now aev = .ok st := by
    simp [ensure_authenticated, hno]
  have hpb : posBody st data
      = ((if isAuthRelatedMessage m then { st with session_id := none } else st),
         .error (.clientError m)) := by
    simp [posBody, hres, hmsg, hne]
  by_cases hsess : isAuthRelatedMessage m = true
  · have hfr : async_get_latest_positions st now ds aev (.ok data)
        = ⟨{ st with session_id := none }, some (positionsParams st ds),
           .error (.clientError ("Unexpected error getting positions: " ++ m))⟩ := by
      simp [async_get_latest_positions, h1, hpb, hsess, PyExn.message]
    refine ⟨⟨"Unexpected error getting positions: " ++ m, by rw [hfr]⟩,
      fun _ => ⟨by rw [hfr], fun t ev2 => ?_⟩, fun hcontra => ?_⟩
    · rw [hfr]
      have hre : needsReauth { st with session_id := none } t = true := by
        simp [needsReauth, optFalsy]
      simp [ensure_authenticated, hre]
    · rw [hsess] at hcontra
      exact absurd hcontra (by simp)
  · have hb : isAuthRelatedMessage m = false := by
      simpa using hsess
    have hfr : async_get_latest_positions st now ds aev (.ok data)
        = ⟨st, some (positionsParams st ds),
           .error (.clientError ("Unexpected error getting positions: " ++ m))⟩ := by
      simp [async_get_latest_positions, h1, hpb, hb, PyExn.message]
    refine ⟨⟨"Unexpected error getting positions: " ++ m, by rw [hfr]⟩,
      fun hs => ?_, fun _ => by rw [hfr]⟩
    · exfalso
      have hT : isAuthRelatedMessage m = true := by
        unfold isAuthRelatedMessage
        rw [hs]
        rfl
      rw [hT] at hb
      exact absurd hb (by decide)

/-- Witness for C2 at a concrete bad-status response whose message is
"Session expired": the stored session id is cleared. -/
theorem c2_session_invalidation_witness :
    (async_get_latest_positions exAuthedState 0 "d" (.ok []) (.ok exBadPosResp)).state.session_id
      = none :=
  ((c2_session_invalidation exAuthedState 0 "d" (.ok []) exBadPosResp
      (some (JVal.str "error")) "Session expired" (by decide) rfl (by decide) rfl).2.1
    (by decide)).1

/-- C7.  After an authentication success that stored `UserIdGuid="U1"` and
`SessionId="S1"`, a subsequent positions call sends exactly those two
values as its `UserIdGuid` and `SessionId` query parameters, and on a
response with `Status.Result="ok"` it returns the `Result` payload
verbatim, or the empty list when the `Result` key is absent. -/
theorem c7_auth_then_fetch (st st1 : ClientState) (now t : Nat) (ds : String)
    (aev : NetEvent) (adata pdata : JObj) (rfs : JObj)
    (hauth : async_authenticate st (.ok adata) now = Except.ok st1)
    (hok : statusGet adata "Result" = some (some (JVal.str "ok")))
    (hres : jget adata "Result" = some (JVal.obj rfs))
    (hU : rfs.lookup "UserIdGuid" = some (JVal.str "U1"))
    (hS : rfs.lookup "SessionId" = some (JVal.str "S1"))
    (ht : t < now + sessionBuffer)
    (hpok : statusGet pdata "Result" = some (some (JVal.str "ok"))) :
    (async_get_latest_positions st1 t ds aev (.ok pdata)).sentParams
      = some [("UserIdGuid", some (JVal.str "U1")),
              ("SessionId", some (JVal.str "S1")),
              ("LastDateReceivedUtc", some (JVal.str ds))] ∧
    (∀ res, jget pdata "Result" = some res →
      (async_get_latest_positions st1 t ds aev (.ok pdata)).outcome = Except.ok res) ∧
    (jget pdata "Result" = none →
      (async_get_latest_positions st1 t ds aev (.ok pdata)).outcome
        = Except.ok (JVal.arr [])) := by
  have hb : authBody st adata now = .ok { st with
      user_id_guid := rfs.lookup "UserIdGuid",
      session_id := rfs.lookup "SessionId",
      session_expires := some (now + sessionBuffer) } := by
    cases rfs with
    | nil => simp [List.lookup] at hU
    | cons hd tl => simp [authBody, hok, hres, isOkResult, optFalsy, jfalsy]
  have hst1 : st1 = { st with
      user_id_guid := rfs.lookup "UserIdGuid",
      session_id := rfs.lookup "SessionId",
      session_expires := some (now + sessionBuffer) } := by
    simp only [async_authenticate, hb] at hauth
    injection hauth with h1
    exact h1.symm
  have hnr : needsReauth st1 t = false := by
    rw [hst1]
    simp [needsReauth, hS, optFalsy, jfalsy, decide_eq_false_iff_not]
    omega
  have hens : ensure_authenticated st1 t aev = .ok st1 := by
    simp [ensure_authenticated, hnr]
  have hpb : posBody st1 pdata = (st1, .ok (jgetD pdata "Result" (.arr []))) := by
    simp [posBody, hpok, isOkResult]
  have hfr : async_get_latest_positions st1 t ds aev (.ok pdata)
      = ⟨st1, some (positionsParams st1 ds), .ok (jgetD pdata "Result" (.arr []))⟩ := by
    simp [async_get_latest_positions, hens, hpb]
  refine ⟨?_, fun res hr => ?_, fun hr => ?_⟩ <;> rw [hfr]
  · rw [hst1]
    simp [positionsParams, hU, hS]
  · simp [jgetD, hr]
  · simp [jgetD, hr]

/-- Witness for C7 at concrete authentication and positions responses. -/
theorem c7_auth_then_fetch_witness :
    (async_get_latest_positions exAuthedState 0 "d" (.ok []) (.ok exPosResp)).sentParams
      = some [("UserIdGuid", some (JVal.str "U1")),
              ("SessionId", some (JVal.str "S1")),
              ("LastDateReceivedUtc", some (JVal.str "d"))] ∧
    (async_get_latest_positions exAuthedState 0 "d" (.ok []) (.ok exPosResp)).outcome
      = Except.ok (JVal.arr [JVal.str "unit1"]) := by
  have h := c7_auth_then_fetch ClientState.init exAuthedState 0 0 "d" (.ok [])
    exAuthResp exPosResp exResultObj rfl rfl rfl rfl rfl (by decide) rfl
  exact ⟨h.1, h.2.1 _ rfl⟩

/-- C8.  After a successful authentication that stored a non-empty session
id, `_ensure_authenticated` performs no re-authentication and leaves the
state unchanged while the current time is before the stored expiry; once
the time reaches the expiry, or the session id has been cleared, it
re-authenticates. -/
theorem c8_ensure_policy (st st1 : ClientState) (now : Nat) (adata : JObj)
    (hauth : async_authenticate st (.ok adata) now = Except.ok st1)
    (hsid : optFalsy st1.session_id = false) :
    (∀ t ev, t < now + sessionBuffer → ensure_authenticated st1 t ev = Except.ok st1) ∧
    (∀ t ev, now + sessionBuffer ≤ t →
      ensure_authenticated st1 t ev = async_authenticate st1 ev t) ∧
    (∀ t ev, ensure_authenticated { st1 with session_id := none } t ev
        = async_authenticate { st1 with session_id := none } ev t) := by
  have hexp := auth_ok_expires hauth
  refine ⟨fun t ev hlt => ?_, fun t ev hge => ?_, fun t ev => ?_⟩
  · have hre : needsReauth st1 t = false := by
      simp [needsReauth, hsid, hexp, decide_eq_false_iff_not]
      omega
    simp [ensure_authenticated, hre]
  · have hre : needsReauth st1 t = true := by
      simp [needsReauth, hsid, hexp]
      omega
    simp [ensure_authenticated, hre]
  · have hre : needsReauth { st1 with session_id := none } t = true := by
      simp [needsReauth, optFalsy]
    simp [ensure_authenticated, hre]

/-- Witness for C8 at the concrete authenticated state, before expiry. -/
theorem c8_ensure_policy_witness :
    ensure_authenticated exAuthedState 0 (NetEvent.ok []) = Except.ok exAuthedState :=
  (c8_ensure_policy ClientState.init exAuthedState 0 exAuthResp rfl rfl).1
    0 (NetEvent.ok []) (by decide)

/-- Helper: a fold of `removesuffix` over tokens none of which ends the
label leaves the label unchanged. -/
theorem foldl_removesuffix_inert (L : List Label) (s : Label)
    (h : ∀ suf ∈ L, suf.isSuffixOf s = false) : L.foldl removesuffix s = s := by
  induction L with
  | nil => rfl
  | cons a L ih =>
    have ha : removesuffix s a = s := by
      simp [removesuffix, h a (by simp)]
    simp only [List.foldl_cons, ha]
    exact ih fun suf hs => h suf (by simp [hs])

/-- Helper: a fold of `removepre` over tokens none of which begins the
label leaves the label unchanged. -/
theorem foldl_removepre_inert (L : List Label) (s : Label)
    (h : ∀ p ∈ L, p.isPrefixOf s = false) : L.foldl removepre s = s := by
  induction L with
  | nil => rfl
  | cons a L ih =>
    have ha : removepre s a = s := by
      simp [removepre, h a (by simp)]
    simp only [List.foldl_cons, ha]
    exact ih fun p hp => h p (by simp [hp])

/-- Helper: the synonym step is inert away from its two source labels. -/
theorem synonymFix_inert (t : Label) (h1 : t ≠ "unlock".toList)
    (h2 : t ≠ "authorized".toList) : synonymFix t = t := by
  show (if (if t = "unlock".toList then "lock".toList else t) = "authorized".toList
        then "unauthorized".toList
        else (if t = "unlock".toList then "lock".toList else t)) = t
  rw [if_neg h1, if_neg h2]

/-- Helper: the synonym step never outputs one of its own two source
labels, so applying it to its own output changes nothing. -/
theorem synonymFix_not_source (t : Label) :
    synonymFix t ≠ "unlock".toList ∧ synonymFix t ≠ "authorized".toList := by
  by_cases h1 : t = "unlock".toList
  · subst h1; decide
  · by_cases h2 : t = "authorized".toList
    · subst h2; decide
    · rw [synonymFix_inert t h1 h2]
      exact ⟨h1, h2⟩

/-- Counterexample to C3 as stated.  The suffix tokens are tried once each
in a fixed order, so a later token can expose an earlier one: stripping
"a error off" removes " off" after the " error" test has already run,
leaving "a error", and a second application strips further to "a". -/
theorem c3_idempotence_counterexample :
    canonTitle (canonTitle "a error off".toList) ≠ canonTitle "a error off".toList := by
  decide

/-- C3 amended.  The transform is not idempotent on all labels
(`c3_idempotence_counterexample`); it is idempotent on every label whose
first image is in stripped form, i.e. ends with none of the listed
trailing tokens and begins with none of the listed leading tokens. -/
theorem c3_canonTitle_idempotent_on_stripped (t : Label)
    (h : strippedForm (canonTitle t) = true) :
    canonTitle (canonTitle t) = canonTitle t := by
  unfold strippedForm at h
  rw [Bool.and_eq_true] at h
  obtain ⟨hA, hB⟩ := h
  have hsuf : ∀ suf ∈ suffixTokens, suf.isSuffixOf (canonTitle t) = false := by
    intro suf hs
    simpa using List.all_eq_true.mp hA suf hs
  have hlead : ∀ p ∈ leadTokens, p.isPrefixOf (canonTitle t) = false := by
    intro p hp
    simpa using List.all_eq_true.mp hB p hp
  have hne : canonTitle t ≠ "unlock".toList ∧ canonTitle t ≠ "authorized".toList := by
    rw [canonTitle]
    exact synonymFix_not_source _
  show synonymFix (leadTokens.foldl removepre (suffixTokens.foldl removesuffix (canonTitle t)))
      = canonTitle t
  rw [foldl_removesuffix_inert _ _ hsuf, foldl_removepre_inert _ _ hlead]
  exact synonymFix_inert _ hne.1 hne.2

/-- Witness for the amended C3 at the concrete label "door open", whose
image "door" is in stripped form. -/
theorem c3_canonTitle_idempotent_witness :
    canonTitle (canonTitle "door open".toList) = canonTitle "door open".toList :=
  c3_canonTitle_idempotent_on_stripped "door open".toList (by decide)

/-- C4.  The colour-token classification: tokens of the first bucket give
`False`, tokens of the second give `True`, and any other token leaves the
indeterminate `None`. -/
theorem c4_color_buckets (c : String) :
    (colorActive c = some false ↔ c ∈ inactiveColors) ∧
    (colorActive c = some true ↔ c ∈ activeColors) ∧
    (colorActive c = none ↔ c ∉ inactiveColors ∧ c ∉ activeColors) := by
  by_cases h1 : c ∈ inactiveColors
  · have h2 : c ∉ activeColors := by
      simp [inactiveColors] at h1
      rcases h1 with rfl | rfl | rfl | rfl <;> decide
    simp [colorActive, h1, h2]
  · by_cases h2 : c ∈ activeColors
    · simp [colorActive, h1, h2]
    · simp [colorActive, h1, h2]

/-- C5.  The `remember` merge: a device id absent from the fresh poll but
present before stays in the snapshot with `available` set to `False` and
every other field unchanged, while a device id present in the fresh poll
takes its fresh record wholesale. -/
theorem c5_merge_policy (prior : UnitsMap) (resp : List IncomingUnit) (k : String) :
    (∀ r, buildUnits resp k = none → prior k = some r →
      ∃ r', get_units prior resp true k = some r' ∧
        r'.available = false ∧ r'.id = r.id ∧ r'.name = r.name ∧ r'.lat = r.lat ∧
        r'.lon = r.lon ∧ r'.sensors = r.sensors ∧
        r'.binary_sensors = r.binary_sensors) ∧
    (∀ r, buildUnits resp k = some r → get_units prior resp true k = some r) := by
  constructor
  · intro r h1 h2
    refine ⟨{ r with available := false }, ?_, rfl, rfl, rfl, rfl, rfl, rfl, rfl⟩
    simp [get_units, applyRemember, h1, h2]
  · intro r h1
    simp [get_units, applyRemember, h1]

/-- Witness for C5: an empty poll keeps the prior "u1" record, marked
unavailable. -/
theorem c5_merge_policy_witness :
    ∃ r', get_units exPrior [] true "u1" = some r' ∧
      r'.available = false ∧ r'.id = exRecord.id ∧ r'.name = exRecord.name ∧
      r'.lat = exRecord.lat ∧ r'.lon = exRecord.lon ∧
      r'.sensors = exRecord.sensors ∧ r'.binary_sensors = exRecord.binary_sensors :=
  (c5_merge_policy exPrior [] "u1").1 exRecord rfl rfl

/-- C6.  Nested-path extraction is total and matches the reading in the spec:
it returns the value at the end of the path when every step goes through
a dict holding the key, and the absent value when an intermediate key is
missing or an intermediate value is not a dict. -/
theorem c6_path_lookup_total (v : JVal) (path : List String) :
    (∀ w, specResolve v path = some w → getValueFromPath v path = w) ∧
    (specResolve v path = none → getValueFromPath v path = JVal.null) := by
  induction path generalizing v with
  | nil =>
    constructor
    · intro w hw
      simp only [specResolve, Option.some.injEq] at hw
      simpa [getValueFromPath] using hw
    · intro h
      simp [specResolve] at h
  | cons k rest ih =>
    cases v with
    | obj fs =>
      cases hl : fs.lookup k with
      | none =>
        constructor
        · intro w hw
          simp [specResolve, hl] at hw
        · intro _
          simp [getValueFromPath, hl]
      | some u =>
        constructor
        · intro w hw
          simp only [specResolve, hl] at hw
          simp only [getValueFromPath, hl]
          exact (ih u).1 w hw
        · intro hw
          simp only [specResolve, hl] at hw
          simp only [getValueFromPath, hl]
          exact (ih u).2 hw
    | null => constructor <;> simp [specResolve, getValueFromPath]
    | bool b => constructor <;> simp [specResolve, getValueFromPath]
    | num n => constructor <;> simp [specResolve, getValueFromPath]
    | str s => constructor <;> simp [specResolve, getValueFromPath]
    | arr xs => constructor <;> simp [specResolve, getValueFromPath]

/-- Witness for C6 at a concrete nested payload. -/
theorem c6_path_lookup_witness :
    getValueFromPath exNested ["Position", "Latitude"] = JVal.num 7 :=
  (c6_path_lookup_total exNested ["Position", "Latitude"]).1 (JVal.num 7) rfl

/-- C9.  A unit id whose entries in the fresh response all have `HasData`
unset gets no record in the freshly built poll result, so with the
`remember` merge it survives only via the prior snapshot, marked
unavailable; a never-before-seen such unit is absent entirely. -/
theorem c9_hasdata_filter (prior : UnitsMap) (resp : List IncomingUnit) (k : String)
    (h : ∀ u ∈ resp, u.unitId = k → u.hasData = false) :
    buildUnits resp k = none ∧
    get_units prior resp true k = (prior k).map fun r => { r with available := false } := by
  have hb : buildUnits resp k = none := by
    unfold buildUnits
    suffices hgen : ∀ (l : List IncomingUnit) (m : UnitsMap), m k = none →
        (∀ u ∈ l, u.unitId = k → u.hasData = false) →
        (l.foldl
          (fun m u =>
            if u.hasData then
              fun k' => if k' = u.unitId then some u.parsed else m k'
            else m) m) k = none by
      exact hgen resp (fun _ => none) rfl h
    intro l
    induction l with
    | nil => intro m hm _; exact hm
    | cons u rest ih =>
      intro m hm hl
      simp only [List.foldl_cons]
      by_cases hd : u.hasData = true
      · have hne : k ≠ u.unitId := by
          intro he
          have := hl u (by simp) he.symm
          rw [this] at hd
          exact absurd hd (by decide)
        have hm' : (fun k' => if k' = u.unitId then some u.parsed else m k') k = none := by
          simp [hne, hm]
        simpa [hd] using ih _ hm' (fun u' hu' => hl u' (by simp [hu']))
      · simpa [hd] using ih m hm (fun u' hu' => hl u' (by simp [hu']))
  refine ⟨hb, ?_⟩
  simp [get_units, applyRemember, hb]

/-- Witness for C9: a response whose only "u1" entry has `HasData` unset
leaves no fresh record, and the merge keeps the prior record marked
unavailable. -/
theorem c9_hasdata_filter_witness :
    buildUnits exNoDataResp "u1" = none ∧
    get_units exPrior exNoDataResp true "u1"
      = (exPrior "u1").map fun r => { r with available := false } :=
  c9_hasdata_filter exPrior exNoDataResp "u1" (by decide)

/-- Helper: `digitChar` is injective on decimal digits. -/
theorem digitChar_injOn : ∀ a, a < 10 → ∀ b, b < 10 → digitChar a = digitChar b → a = b := by
  decide

/-- Helper: mapping `digitChar` over digit lists is injective. -/
theorem map_digitChar_inj : ∀ (l1 l2 : List Nat), (∀ x ∈ l1, x < 10) →
    (∀ x ∈ l2, x < 10) → l1.map digitChar = l2.map digitChar → l1 = l2 := by
  intro l1
  induction l1 with
  | nil =>
    intro l2 _ _ h
    cases l2 with
    | nil => rfl
    | cons b t => simp at h
  | cons a t1 ih =>
    intro l2 h1 h2 h
    cases l2 with
    | nil => simp at h
    | cons b t2 =>
      simp only [List.map_cons, List.cons.injEq] at h
      have ha : a = b :=
        digitChar_injOn a (h1 a (by simp)) b (h2 b (by simp)) h.1
      have ht : t1 = t2 :=
        ih t2 (fun x hx => h1 x (by simp [hx])) (fun x hx => h2 x (by simp [hx])) h.2
      rw [ha, ht]

/-- Helper: the decimal rendering of a counter is injective. -/
theorem natChars_inj {m n : Nat} (h : natChars m = natChars n) : m = n := by
  unfold natChars at h
  have h1 := List.reverse_injective h
  have h2 := map_digitChar_inj _ _
    (fun x hx => Nat.digits_lt_base (by norm_num) hx)
    (fun x hx => Nat.digits_lt_base (by norm_num) hx) h1
  exact Nat.digits_inj_iff.mp h2

/-- Helper: distinct counters give distinct candidate keys. -/
theorem candKey_inj (base : List Char) : Function.Injective (candKey base) := by
  intro i j h
  unfold candKey at h
  by_cases hi : i = 0 <;> by_cases hj : j = 0
  · rw [hi, hj]
  · rw [if_pos hi, if_neg hj] at h
    have := congrArg List.length h
    simp [List.length_append] at this
  · rw [if_neg hi, if_pos hj] at h
    have := congrArg List.length h
    simp [List.length_append] at this
  · rw [if_neg hi, if_neg hj] at h
    have h1 := List.append_cancel_left h
    simp only [List.cons.injEq] at h1
    exact natChars_inj h1.2

/-- Helper: among the first `used.length + 2` candidates one is always
fresh, by pigeonhole over the distinct candidates. -/
theorem freshKey_candidate_exists (base : List Char) (used : List (List Char)) :
    ∃ j, j ≤ used.length + 1 ∧ candKey base j ∉ used := by
  by_contra hall
  push_neg at hall
  have hsub : (Finset.range (used.length + 2)).image (candKey base) ⊆ used.toFinset := by
    intro x hx
    simp only [Finset.mem_image, Finset.mem_range] at hx
    obtain ⟨j, hj, rfl⟩ := hx
    exact List.mem_toFinset.mpr (hall j (by omega))
  have hcard := Finset.card_le_card hsub
  rw [Finset.card_image_of_injective _ (candKey_inj base), Finset.card_range] at hcard
  have := used.toFinset_card_le
  omega

/-- Helper: when a fresh candidate lies within the fuel window, the
collision loop returns a key outside the generated set. -/
theorem freshKeyAux_not_mem (base : List Char) (used : List (List Char)) :
    ∀ (fuel c : Nat), (∃ j, c ≤ j ∧ j ≤ c + fuel ∧ candKey base j ∉ used) →
      freshKeyAux base used c fuel ∉ used := by
  intro fuel
  induction fuel with
  | zero =>
    intro c ⟨j, hj1, hj2, hj3⟩
    have hjc : j = c := by omega
    subst hjc
    simpa [freshKeyAux] using hj3
  | succ fuel ih =>
    intro c ⟨j, hj1, hj2, hj3⟩
    by_cases hc : candKey base c ∈ used
    · have hjc : c + 1 ≤ j := by
        rcases Nat.eq_or_lt_of_le hj1 with rfl | hlt
        · exact absurd hc hj3
        · omega
      have hrec := ih (c + 1) ⟨j, hjc, by omega, hj3⟩
      simpa [freshKeyAux, hc] using hrec
    · simp [freshKeyAux, hc]

/-- Helper: a freshly generated key part never collides with the set of
already-generated key parts. -/
theorem freshKey_not_mem (base : List Char) (used : List (List Char)) :
    freshKey base used ∉ used := by
  obtain ⟨j, hj, hnot⟩ := freshKey_candidate_exists base used
  exact freshKeyAux_not_mem base used (used.length + 1) 0 ⟨j, Nat.zero_le _, by omega, hnot⟩

/-- C10.  The unique-key parts generated for the `InputOutput`
items of one unit are pairwise distinct, and so are the unique ids obtained by
attaching any fixed `f"{unit_uid}_io_"` lead to them. -/
theorem c10_unique_key_parts (slug : String → String) (items : List IOItem) :
    (genKeys slug items).Nodup ∧
    ∀ uidIo : List Char, ((genKeys slug items).map (fun k => uidIo ++ k)).Nodup := by
  have main : ∀ (its : List IOItem) (used : List (List Char)), used.Nodup →
      (genKeysAux slug its used).Nodup := by
    intro its
    induction its with
    | nil => intro used hu; exact hu
    | cons io rest ih =>
      intro used hu
      cases hs : io.systemName with
      | none => simpa [genKeysAux, hs] using ih used hu
      | some sys =>
        by_cases he : sys = ""
        · simpa [genKeysAux, hs, he] using ih used hu
        · have hfr := freshKey_not_mem
            ((slug sys ++ "_" ++ slug (ioDisplayName sys io)).toList) used
          have hnd : (used ++
              [freshKey ((slug sys ++ "_" ++ slug (ioDisplayName sys io)).toList) used]).Nodup := by
            rw [List.nodup_append]
            refine ⟨hu, List.nodup_singleton _, ?_⟩
            intro a ha hb
            simp only [List.mem_singleton] at hb
            subst hb
            exact hfr ha
          simpa [genKeysAux, hs, he] using ih _ hnd
  refine ⟨main items [] (by simp), fun uidIo => ?_⟩
  refine List.Nodup.map ?_ (main items [] (by simp))
  intro a b hab
  exact List.append_cancel_left hab

end G4S
